import Mathlib

/-!
Verification development for the mwc-node p2p/sync core.

Shallow embedding of the code under `src/` (p2p `conn.rs`, `peers.rs`,
servers `mwc/sync/syncer.rs`, api `handlers/pool_api.rs`).  Stateful Rust
code is modelled by explicit state passing; the timed registry locks are
modelled as always succeeding (single-threaded semantics); `stop()` calls
on live peers are recorded in a ghost `stopLog` so that stop side effects
remain observable after a peer leaves the map.  Components of the
repository that are not part of `src/` (the `Peer` typed senders, the
`PeerStore`, the `RateCounter`) are modelled from the spec and marked as
such in their doc comments.
-/

/-- Abstract peer address: the claims only depend on address identity
(decidable equality), so addresses are modelled as naturals. -/
abbrev PeerAddr := Nat

/-- Direction of a peer connection (`types.rs`). -/
inductive Direction where
  | Inbound
  | Outbound
deriving DecidableEq, Repr

/-- Persistent peer state from `store.rs` (`State`). -/
inductive State where
  | Healthy
  | Banned
  | Defunct
deriving DecidableEq, Repr

/-- Ban reasons (`types.rs` `ReasonForBan`), abridged to the variants the
claims mention. -/
inductive ReasonForBan where
  | None
  | BadBlock
  | BadCompactBlock
  | BadBlockHeader
  | BadHandshake
  | ManualBan
  | FraudHeight
  | BadHandshakeVersion
deriving DecidableEq, Repr

/-- Capability bitset (`types.rs` `Capabilities`); `UNKNOWN` is the empty
bitset 0, and `contains` is the bitflags test `bits &&& other = other`. -/
def capContains (bits other : Nat) : Bool := bits.land other = other

/-- Error type (`types.rs` `Error`), abridged to the variants reachable in
the embedded operations. -/
inductive Error where
  | Send (msg : String)
  | PeerNotFound
  | PeerNotBanned
  | Timeout
  | PeerException (msg : String)
  | Store (msg : String)
  | Internal (msg : String)
deriving DecidableEq, Repr

/-- Wire messages queued on a peer's outbound channel (`msg.rs` `Msg`).
Only the payload identity matters for the claims. -/
inductive Msg where
  | BanReason (r : ReasonForBan)
  | Ping (total_difficulty : Nat) (height : Nat)
  | Raw (k : Nat)
deriving DecidableEq, Repr

/-- Outbound message cap from `conn.rs`:
`pub const SEND_CHANNEL_CAP: usize = 32 + 8;`. -/
def SEND_CHANNEL_CAP : Nat := 32 + 8

/-- Crossbeam bounded channel error for `try_send`. -/
inductive TrySendErr where
  | Full
  | Disconnected
deriving DecidableEq, Repr

/-- State of the crossbeam bounded channel created by `listen` in `conn.rs`
(`crossbeam::channel::bounded(SEND_CHANNEL_CAP)`): a FIFO queue with a
capacity and a flag recording that the receiving side has been dropped. -/
structure SendChannel where
  cap : Nat
  queue : List Msg
  disconnected : Bool
deriving DecidableEq, Repr

/-- Crossbeam `try_send` on the bounded channel: fails with `Disconnected`
when the receiver is gone, with `Full` when there is no free capacity, and
otherwise enqueues at the back. -/
def SendChannel.trySend (c : SendChannel) (m : Msg) : SendChannel × Option TrySendErr :=
  if c.disconnected then (c, some TrySendErr.Disconnected)
  else if c.cap ≤ c.queue.length then (c, some TrySendErr.Full)
  else ({ c with queue := c.queue ++ [m] }, none)

/-- `ConnHandle::send` from `conn.rs`: non-blocking `try_send`;
`Disconnected` maps to `Err(Error::Send(..))`, `Full` drops the message
and returns `Ok`. -/
def ConnHandle.send (c : SendChannel) (m : Msg) : SendChannel × Except Error Unit :=
  match c.trySend m with
  | (c1, none) => (c1, Except.ok ())
  | (c1, some TrySendErr.Disconnected) =>
      (c1, Except.error (Error.Send "try_send disconnected"))
  | (c1, some TrySendErr.Full) => (c1, Except.ok ())

/-- Entry recorded by the rate counter: byte size, whether the increment
was quiet (no message tick), and its timestamp in seconds. -/
structure RateEntry where
  bytes : Nat
  quiet : Bool
  time : Nat
deriving DecidableEq, Repr

/-- Modelled from the spec: `RateCounter` (from the `util` crate, not under
`src/`) records byte increments; a normal `inc` carries a message tick, an
`inc_quiet` records bytes but no message tick, and `count_per_min` counts
the message ticks of the last minute. -/
structure RateCounter where
  entries : List RateEntry
deriving DecidableEq, Repr

/-- Normal increment: bytes plus a message tick. -/
def RateCounter.inc (c : RateCounter) (now bytes : Nat) : RateCounter :=
  { entries := c.entries ++ [{ bytes := bytes, quiet := false, time := now }] }

/-- Quiet increment: bytes recorded, no message tick. -/
def RateCounter.inc_quiet (c : RateCounter) (now bytes : Nat) : RateCounter :=
  { entries := c.entries ++ [{ bytes := bytes, quiet := true, time := now }] }

/-- Message ticks observed within the last minute. -/
def RateCounter.count_per_min (c : RateCounter) (now : Nat) : Nat :=
  (c.entries.filter (fun e => ¬ e.quiet ∧ now - e.time < 60)).length

/-- Inbound messages as classified by the reader loop in `conn.rs`
(`Message`), carrying exactly the payload the tracker dispatch inspects:
attachment chunks and the `remaining` count of a headers batch. -/
inductive Message where
  | Unknown (type_byte : Nat)
  | Attachment (left : Nat) (bytes : Option (List Nat))
  | Headers (remaining : Nat)
  | Other (k : Nat)
deriving DecidableEq, Repr

/-- Result of one `codec.read()`: either a message or a read error
(error identity abstracted to a code). -/
abbrev ReadResult := Except Nat Message

/-- Quiet classification used by the reader loop's tracker dispatch:
attachment chunks and header batches with `remaining > 0` are quiet;
everything else (including read errors) is counted normally. -/
def isQuietRead : ReadResult → Bool
  | Except.ok (Message.Attachment _ _) => true
  | Except.ok (Message.Headers remaining) => remaining ≠ 0
  | _ => false

/-- Tracker update performed by one reader-loop iteration in `conn.rs`
(`poll`, reader thread): skipped entirely while `sync_state.is_syncing()`;
otherwise attachment chunks are `inc_quiet_received`, header batches are
quiet unless `remaining == 0`, and every other read is `inc_received`. -/
def readerTrackerUpdate (syncing : Bool) (tracker : RateCounter) (now : Nat)
    (next : ReadResult) (bytes_read : Nat) : RateCounter :=
  if syncing then tracker
  else
    match next with
    | Except.ok (Message.Attachment _ _) => tracker.inc_quiet now bytes_read
    | Except.ok (Message.Headers remaining) =>
        if remaining = 0 then tracker.inc now bytes_read
        else tracker.inc_quiet now bytes_read
    | _ => tracker.inc now bytes_read

/-- One observed reader-loop event: the syncing flag at that instant, the
timestamp, the codec read result and the bytes consumed. -/
structure ReaderEvent where
  syncing : Bool
  time : Nat
  next : ReadResult
  bytes_read : Nat

/-- Tracker state after a trace of reader-loop iterations. -/
def readerTrace (events : List ReaderEvent) (t0 : RateCounter) : RateCounter :=
  events.foldl (fun t e => readerTrackerUpdate e.syncing t e.time e.next e.bytes_read) t0

/-- Lookup in an association list (the model of the registry `HashMap` and
the peer store). -/
def alookup {β : Type} (a : PeerAddr) : List (PeerAddr × β) → Option β
  | [] => none
  | (k, v) :: t => if k = a then some v else alookup a t

/-- Update the value stored under a key (no-op when the key is absent). -/
def aupdate {β : Type} (a : PeerAddr) (v : β) : List (PeerAddr × β) → List (PeerAddr × β)
  | [] => []
  | (k, w) :: t => if k = a then (k, v) :: t else (k, w) :: aupdate a v t

/-- Remove the entry stored under a key (`HashMap::remove`). -/
def aerase {β : Type} (a : PeerAddr) : List (PeerAddr × β) → List (PeerAddr × β)
  | [] => []
  | (k, w) :: t => if k = a then t else (k, w) :: aerase a t

/-- Per-peer identity and live counters (`types.rs` `PeerInfo`, with the
`live_info` height/difficulty block flattened). -/
structure PeerInfo where
  addr : PeerAddr
  direction : Direction
  capabilities : Nat
  user_agent : String
  tx_base_fee : Nat
  height : Nat
  total_difficulty : Nat
deriving DecidableEq, Repr

/-- Persistent peer record (`store.rs` `PeerData`). -/
structure PeerData where
  addr : PeerAddr
  capabilities : Nat
  user_agent : String
  flags : State
  last_banned : Int
  ban_reason : ReasonForBan
  last_connected : Int
deriving DecidableEq, Repr

/-- Live peer (`peer.rs`, not under `src/`).  Modelled from the spec: the
composition of `PeerInfo`, the write-side `ConnHandle` channel, the banned
flag and the stop flag; the status predicates `is_connected`, `is_abusive`
and `is_stuck` are driven by tracker counters and timestamps, so their
current verdicts appear here as abstract state fields. -/
structure Peer where
  info : PeerInfo
  conn : SendChannel
  banned : Bool
  stopped : Bool
  connectedFlag : Bool
  abusiveFlag : Bool
  stuckFlag : Bool
deriving DecidableEq, Repr

/-- Peer banned-flag predicate. -/
def Peer.is_banned (p : Peer) : Bool := p.banned

/-- Peer liveness predicate. -/
def Peer.is_connected (p : Peer) : Bool := p.connectedFlag

/-- Peer abuse predicate (rate thresholds, abstracted). -/
def Peer.is_abusive (p : Peer) : Bool := p.abusiveFlag

/-- Stuck predicate together with the last reported difficulty. -/
def Peer.is_stuck (p : Peer) : Bool × Nat := (p.stuckFlag, p.info.total_difficulty)

/-- Modelled from the spec: the typed sender `Peer::send_ban_reason`
(`peer.rs`, not under `src/`) serializes the ban reason and enqueues it via
`ConnHandle::send`, returning the send verdict. -/
def Peer.send_ban_reason (p : Peer) (r : ReasonForBan) : Peer × Except Error Unit :=
  match ConnHandle.send p.conn (Msg.BanReason r) with
  | (conn1, res) => ({ p with conn := conn1 }, res)

/-- Registry state (`peers.rs` `Peers`): the live map, the persistent
store, the excluded set and the consecutive-underperformance counters.
The `stopLog` is ghost state recording every live peer on which `stop()`
was invoked, in call order. -/
structure Peers where
  peers : List (PeerAddr × Peer)
  store : List (PeerAddr × PeerData)
  excluded : List PeerAddr
  out_peers_failures : List (PeerAddr × Nat)
  stopLog : List Peer
deriving Repr

/-- Snapshot taken by `Peers::iter()`: the map values minus the excluded
addresses (the timed read lock is modelled as succeeding). -/
def Peers.iterList (ps : Peers) : List Peer :=
  (ps.peers.filter (fun kv => ¬ ps.excluded.contains kv.1)).map Prod.snd

/-- The `iter().connected()` pipeline. -/
def Peers.connectedList (ps : Peers) : List Peer :=
  ps.iterList.filter Peer.is_connected

/-- The `iter().outbound().connected()` pipeline used by `clean_peers`. -/
def Peers.outboundConnected (ps : Peers) : List Peer :=
  (ps.iterList.filter (fun p => p.info.direction = Direction.Outbound)).filter
    Peer.is_connected

/-- The `iter().inbound().connected()` pipeline used by `clean_peers`. -/
def Peers.inboundConnected (ps : Peers) : List Peer :=
  (ps.iterList.filter (fun p => p.info.direction = Direction.Inbound)).filter
    Peer.is_connected

/-- `Peers::get_connected_peer`: `iter().connected().by_addr(addr)`. -/
def Peers.get_connected_peer (ps : Peers) (addr : PeerAddr) : Option Peer :=
  ps.connectedList.find? (fun p => p.info.addr = addr)

/-- Modelled from the spec: `PeerStore::update_state` (`store.rs`, not
under `src/`) is a CRUD update of the existing record's `flags`; updating
an absent record is the store's not-found error.  Wrapped by
`Peers::update_state` in `peers.rs`. -/
def Peers.update_state (ps : Peers) (addr : PeerAddr) (s : State) :
    Peers × Except Error Unit :=
  match alookup addr ps.store with
  | some pd => ({ ps with store := aupdate addr { pd with flags := s } ps.store },
                Except.ok ())
  | none => (ps, Except.error (Error.Store "peer not found"))

/-- `Peers::get_peer`: store CRUD read, not-found error when absent. -/
def Peers.get_peer (ps : Peers) (addr : PeerAddr) : Except Error PeerData :=
  match alookup addr ps.store with
  | some pd => Except.ok pd
  | none => Except.error (Error.Store "peer not found")

/-- `Peers::is_banned`: the stored record exists and its state is
`Banned`. -/
def Peers.is_banned (ps : Peers) (addr : PeerAddr) : Bool :=
  match alookup addr ps.store with
  | some pd => pd.flags = State.Banned
  | none => false

/-- `Peers::ban_peer` from `peers.rs`: persist `Banned` first; then, when a
connected peer exists at the address, send the ban reason (the `?` on
`send_ban_reason` propagates a send failure), set the banned flag, stop the
workers and remove the peer from the map; otherwise `Err(PeerNotFound)`. -/
def Peers.ban_peer (ps : Peers) (addr : PeerAddr) (r : ReasonForBan) :
    Peers × Except Error Unit :=
  match ps.update_state addr State.Banned with
  | (ps1, Except.error e) => (ps1, Except.error e)
  | (ps1, Except.ok _) =>
    match ps1.get_connected_peer addr with
    | some peer =>
      match peer.send_ban_reason r with
      | (_, Except.error e) => (ps1, Except.error e)
      | (peer1, Except.ok _) =>
        let bannedPeer := { peer1 with banned := true, stopped := true }
        ({ ps1 with
            peers := aerase peer.info.addr ps1.peers,
            stopLog := ps1.stopLog ++ [bannedPeer] },
         Except.ok ())
    | none => (ps1, Except.error Error.PeerNotFound)

/-- `Peers::unban_peer` from `peers.rs`: read the stored record (its store
error propagates when the address is unknown); transition `Banned` to
`Healthy`, otherwise fail with `PeerNotBanned`. -/
def Peers.unban_peer (ps : Peers) (addr : PeerAddr) : Peers × Except Error Unit :=
  match ps.get_peer addr with
  | Except.error e => (ps, Except.error e)
  | Except.ok _ =>
    if ps.is_banned addr then ps.update_state addr State.Healthy
    else (ps, Except.error Error.PeerNotBanned)

/-- Loop body of `Peers::broadcast`: walk the connected snapshot; count
`Ok(true)`; on an `Err` stop the peer and remove it from the map (the
timed write lock is modelled as succeeding), and keep going.  Also returns
the list of peers the closure was applied to, in order. -/
def broadcastLoop (f : Peer → Except Error Bool) :
    List Peer → Peers → Nat → Peers × Nat × List Peer
  | [], ps, count => (ps, count, [])
  | p :: rest, ps, count =>
    match f p with
    | Except.ok true =>
        match broadcastLoop f rest ps (count + 1) with
        | (ps1, c1, calls) => (ps1, c1, p :: calls)
    | Except.ok false =>
        match broadcastLoop f rest ps count with
        | (ps1, c1, calls) => (ps1, c1, p :: calls)
    | Except.error _ =>
        match broadcastLoop f rest
            { ps with
                peers := aerase p.info.addr ps.peers,
                stopLog := ps.stopLog ++ [p] } count with
        | (ps1, c1, calls) => (ps1, c1, p :: calls)

/-- `Peers::broadcast` from `peers.rs`: iterate `iter().connected()` and
return the success count (with the applied-peer list kept as an
observation). -/
def Peers.broadcast (ps : Peers) (f : Peer → Except Error Bool) :
    Peers × Nat × List Peer :=
  broadcastLoop f ps.connectedList ps 0

/-- Adapter values `clean_peers` consults (`ChainAdapter::total_difficulty`
and `total_height` as fallible calls, `global::get_accept_fee_base`). -/
structure AdapterCtx where
  total_difficulty : Except String Nat
  total_height : Except String Nat
  accept_fee_base : Nat

/-- First `clean_peers` pass over `iter()` (`peers.rs`): banned,
disconnected and abusive peers go on the removal list (abusive ones are
also persisted `Banned`); a connected peer that is stuck with difficulty
below the local tip is persisted `Defunct` and removed; adapter errors
skip the stuck check. -/
def cleanStep1Body (ctx : AdapterCtx) (acc : Peers × List PeerAddr) (peer : Peer) :
    Peers × List PeerAddr :=
  let ps := acc.1
  let rm := acc.2
  if peer.is_banned then (ps, rm ++ [peer.info.addr])
  else if ¬ peer.is_connected then (ps, rm ++ [peer.info.addr])
  else if peer.is_abusive then
    ((ps.update_state peer.info.addr State.Banned).1, rm ++ [peer.info.addr])
  else
    match ctx.total_difficulty with
    | Except.ok total_difficulty =>
      if peer.is_stuck.1 ∧ peer.is_stuck.2 < total_difficulty then
        ((ps.update_state peer.info.addr State.Defunct).1, rm ++ [peer.info.addr])
      else (ps, rm)
    | Except.error _ => (ps, rm)

def cleanStep1 (ctx : AdapterCtx) (ps0 : Peers) : Peers × List PeerAddr :=
  ps0.iterList.foldl (cleanStep1Body ctx) (ps0, [])

/-- Boost trimming step of `clean_peers`: when a boost capability is set,
take non-preferred outbound peers lacking the capability, up to the count
exceeding `max_outbound_count / 2`. -/
def cleanBoost (ps : Peers) (max_outbound_count boost_capability : Nat)
    (preferred : List PeerAddr) : List PeerAddr :=
  if boost_capability ≠ 0 then
    let excess_outgoing_count := ps.outboundConnected.length - max_outbound_count / 2
    ((((ps.outboundConnected.map Peer.info).filter
        (fun x => ¬ preferred.contains x.addr ∧
          ¬ capContains x.capabilities boost_capability)).map PeerInfo.addr).take
      excess_outgoing_count)
  else []

/-- Underperformance pass of `clean_peers` (`peers.rs`): an outbound peer
whose height is strictly below `my_height - 2` (saturating) and whose
difficulty is below ours gets its consecutive-failure counter (read from
the previous cycle's map) incremented; at 3 it is pushed on the removal
list; the fresh counter map keeps only the peers matching this cycle.
Returns (removal-list additions, next failure map). -/
def underperfStep (my_height my_difficulty : Nat)
    (failures : List (PeerAddr × Nat)) :
    List PeerInfo → List PeerAddr × List (PeerAddr × Nat)
  | [] => ([], [])
  | peer :: rest =>
    if peer.height < my_height - 2 ∧ peer.total_difficulty < my_difficulty then
      let fail_counter := (alookup peer.addr failures).getD 0 + 1
      let tail := underperfStep my_height my_difficulty failures rest
      ((if 3 ≤ fail_counter then [peer.addr] else []) ++ tail.1,
       (peer.addr, fail_counter) :: tail.2)
    else underperfStep my_height my_difficulty failures rest

/-- Victim ranking of the excess-outbound step: a peer advertising a lower
transaction base fee than ours has its total difficulty halved. -/
def peerScore (my_base_fee : Nat) (x : PeerInfo) : Nat :=
  if x.tx_base_fee < my_base_fee then x.total_difficulty / 2
  else x.total_difficulty

/-- Excess-outbound step of `clean_peers`: when the (already reduced)
excess count is positive, sort the candidate infos by score ascending and
take the excess count of lowest-ranked victims. -/
def excessOutboundStep (my_base_fee excess : Nat) (infos : List PeerInfo) :
    List PeerInfo :=
  if 0 < excess then
    (infos.mergeSort
        (fun a b => peerScore my_base_fee a ≤ peerScore my_base_fee b)).take excess
  else []

/-- Excess-inbound step of `clean_peers`: non-preferred inbound peers, up
to the count exceeding `max_inbound_count`. -/
def cleanInbound (ps : Peers) (max_inbound_count : Nat)
    (preferred : List PeerAddr) : List PeerAddr :=
  let excess_incoming_count := ps.inboundConnected.length - max_inbound_count
  if 0 < excess_incoming_count then
    ((ps.inboundConnected.filter
        (fun x => ¬ preferred.contains x.info.addr)).take excess_incoming_count).map
      (fun x => x.info.addr)
  else []

/-- Final pass of `clean_peers`: stop and remove every address on the
removal list (a stop is only issued when the address is still mapped). -/
def Peers.removeAll (ps : Peers) (rm : List PeerAddr) : Peers :=
  rm.foldl
    (fun ps addr =>
      match alookup addr ps.peers with
      | some p => { ps with stopLog := ps.stopLog ++ [p], peers := aerase addr ps.peers }
      | none => { ps with peers := aerase addr ps.peers })
    ps

/-- The non-preferred outbound candidate infos used by the
underperformance and excess-outbound steps. -/
def Peers.cleanCandidates (ps : Peers) (preferred : List PeerAddr) : List PeerInfo :=
  (ps.outboundConnected.map Peer.info).filter (fun x => ¬ preferred.contains x.addr)

/-- `Peers::clean_peers` from `peers.rs`, assembled from the step passes
in source order: flagged/disconnected/abusive/stuck peers, boost trimming,
underperformance counters (the failure map is replaced before removals),
excess outbound shedding reduced by the underperformance removals and
capped at 2, excess inbound shedding, then the removal pass. -/
def Peers.clean_peers (ctx : AdapterCtx) (ps : Peers)
    (max_inbound_count max_outbound_count boost_capability : Nat)
    (preferred : List PeerAddr) : Peers :=
  match cleanStep1 ctx ps with
  | (ps1, rm1) =>
    let rm2 := rm1 ++ cleanBoost ps1 max_outbound_count boost_capability preferred
    let my_difficulty := ctx.total_difficulty.toOption.getD 0
    let my_height := ctx.total_height.toOption.getD 0
    let peer_infos := ps1.cleanCandidates preferred
    let excess0 := Nat.min 2 (ps1.outboundConnected.length - max_outbound_count)
    match underperfStep my_height my_difficulty ps1.out_peers_failures peer_infos with
    | (rm4, next_failures) =>
      let excess := excess0 - rm4.length
      let rm5 := (excessOutboundStep ctx.accept_fee_base excess peer_infos).map
        PeerInfo.addr
      let rm6 := cleanInbound ps1 max_inbound_count preferred
      Peers.removeAll { ps1 with out_peers_failures := next_failures }
        (rm2 ++ rm4 ++ rm5 ++ rm6)

/-- Sync status (`chain` `SyncStatus`), abridged to the variants the
runner claims mention. -/
inductive SyncStatus where
  | Initial
  | NoSync
  | AwaitingPeers
  | HeaderSync
  | BodySync
  | StateSync
deriving DecidableEq, Repr

/-- The `MIN_PEERS` constant of `SyncRunner::wait_for_min_peers`. -/
def MIN_PEERS : Nat := 3

/-- Wait budget chosen by `wait_for_min_peers`: 30 when the sync status is
`AwaitingPeers`, 3 otherwise. -/
def waitSecs (status : SyncStatus) : Nat :=
  match status with
  | SyncStatus.AwaitingPeers => 30
  | _ => 3

/-- The peer count computed each second by `wait_for_min_peers`
(`syncer.rs`): `iter().outbound().with_difficulty(|x| x.to_num() > 0 &&
x >= head.total_difficulty).connected().count()`. -/
def wpCount (peers : List Peer) (head_total_difficulty : Nat) : Nat :=
  (((peers.filter (fun p => p.info.direction = Direction.Outbound)).filter
      (fun p => 0 < p.info.total_difficulty ∧
        head_total_difficulty ≤ p.info.total_difficulty)).filter
    Peer.is_connected).length

/-- Loop of `wait_for_min_peers`, with the iteration index `n` counting
the one-second sleeps performed so far: exit when stopped, when the peer
count reaches `MIN_PEERS`, or when `n` exceeds the wait budget.  The fuel
argument dominates the guaranteed exit bound `wait_secs + 1`. -/
def waitLoopAux (stopped : Nat → Bool) (wp : Nat → Nat) (wait_secs : Nat) :
    Nat → Nat → Nat
  | 0, n => n
  | fuel + 1, n =>
    if stopped n then n
    else if MIN_PEERS ≤ wp n ∨ wait_secs < n then n
    else waitLoopAux stopped wp wait_secs fuel (n + 1)

/-- Number of one-second sleeps `SyncRunner::wait_for_min_peers` performs
before returning, given the per-second stop-flag and peer-count
observations. -/
def waitForMinPeersSleeps (stopped : Nat → Bool) (wp : Nat → Nat)
    (wait_secs : Nat) : Nat :=
  waitLoopAux stopped wp wait_secs (wait_secs + 2) 0

/-- Transactions and block headers are abstract for the pool-push claim:
only their identity matters. -/
structure Transaction where
  id : Nat
deriving DecidableEq, Repr

/-- Abstract chain-head block header. -/
structure BlockHeader where
  id : Nat
deriving DecidableEq, Repr

/-- Transaction source tag passed to `add_to_pool`. -/
inductive TxSource where
  | PushApi
  | Broadcast
  | Fluff
deriving DecidableEq, Repr

/-- One recorded invocation of `add_to_pool`. -/
structure AddToPoolCall where
  source : TxSource
  tx : Transaction
  stem : Bool
  header : BlockHeader
deriving DecidableEq, Repr

/-- Errors surfaced by the pool push handler (`rest.rs` `ErrorKind`,
abridged). -/
inductive ApiError where
  | WeakRef
  | RequestErr (msg : String)
  | InternalErr (msg : String)
deriving DecidableEq, Repr

/-- The `TxWrapper` body of a pool push request: the hex-encoded
serialized transaction. -/
structure TxWrapperModel where
  tx_hex : String
deriving DecidableEq, Repr

/-- Collaborators of `update_pool` (`pool_api.rs`): the weak pool
reference upgrade, the parsed request body, hex decoding, binary
deserialization at a protocol version, the chain head and the pool
insertion verdict. -/
structure ApiEnv where
  pool_upgraded : Bool
  parse_body : Except ApiError TxWrapperModel
  from_hex : String → Except String (List Nat)
  deserialize : List Nat → Nat → Except String Transaction
  chain_head : Except String BlockHeader
  add_to_pool : TxSource → Transaction → Bool → BlockHeader → Except String Unit

/-- `update_pool` from `pool_api.rs`: decode the hex body, deserialize at
fixed protocol version 1, resolve the chain head and push with source
`PushApi` and stem flag `!fluff`; every failure short-circuits.  Returns
the handler verdict together with the recorded `add_to_pool` calls. -/
def update_pool (env : ApiEnv) (fluff : Bool) :
    Except ApiError Unit × List AddToPoolCall :=
  if env.pool_upgraded = false then (Except.error ApiError.WeakRef, [])
  else
    match env.parse_body with
    | Except.error e => (Except.error e, [])
    | Except.ok wrapper =>
      match env.from_hex wrapper.tx_hex with
      | Except.error e =>
          (Except.error (ApiError.RequestErr ("Unable to decode transaction hex " ++ e)), [])
      | Except.ok tx_bin =>
        match env.deserialize tx_bin 1 with
        | Except.error e =>
            (Except.error
              (ApiError.RequestErr ("Unable to deserialize transaction from binary " ++ e)),
             [])
        | Except.ok tx =>
          match env.chain_head with
          | Except.error e =>
              (Except.error (ApiError.InternalErr ("Failed to get chain head, " ++ e)), [])
          | Except.ok header =>
            let call : AddToPoolCall :=
              { source := TxSource.PushApi, tx := tx, stem := !fluff, header := header }
            match env.add_to_pool TxSource.PushApi tx (!fluff) header with
            | Except.error e =>
                (Except.error (ApiError.InternalErr ("Failed to update pool, " ++ e)),
                 [call])
            | Except.ok _ => (Except.ok (), [call])

/-- Peer count under the spec sentence's strict reading: outbound connected
peers whose total difficulty strictly exceeds the local head's. -/
def strictExceedCount (peers : List Peer) (head_total_difficulty : Nat) : Nat :=
  ((peers.filter (fun p => p.info.direction = Direction.Outbound)).filter
    (fun p => head_total_difficulty < p.info.total_difficulty ∧ p.connectedFlag)).length

/-- Claim C2 as stated: for a stored address with a connected peer,
`ban_peer` persists `Banned`, notifies best-effort (never failing the
call), marks the banned flag, stops the workers and removes the peer;
with no connected peer it yields `PeerNotFound`. -/
def claim_C2_statement : Prop :=
  ∀ (ps : Peers) (addr : PeerAddr) (r : ReasonForBan),
    (alookup addr ps.store).isSome →
    (∀ p, ps.get_connected_peer addr = some p →
      (ps.ban_peer addr r).2 = Except.ok () ∧
      (∃ pd, alookup addr (ps.ban_peer addr r).1.store = some pd ∧
        pd.flags = State.Banned) ∧
      (ps.ban_peer addr r).1.peers = aerase addr ps.peers ∧
      (∃ q, (ps.ban_peer addr r).1.stopLog = ps.stopLog ++ [q] ∧ q.banned = true ∧
        q.stopped = true ∧ q.info.addr = addr)) ∧
    (ps.get_connected_peer addr = none →
      (ps.ban_peer addr r).2 = Except.error Error.PeerNotFound)

/-- Claim C4 as stated: a candidate outbound peer whose height is at least
2 below ours and whose difficulty is below ours has its counter
incremented; it joins the removal set exactly at counter 3; non-matching
candidates are reset. -/
def claim_C4_statement : Prop :=
  ∀ (my_height my_difficulty : Nat) (failures : List (PeerAddr × Nat))
    (infos : List PeerInfo),
    (infos.map PeerInfo.addr).Nodup →
    ∀ x ∈ infos,
      ((x.height + 2 ≤ my_height ∧ x.total_difficulty < my_difficulty) →
        alookup x.addr (underperfStep my_height my_difficulty failures infos).2 =
          some ((alookup x.addr failures).getD 0 + 1) ∧
        (x.addr ∈ (underperfStep my_height my_difficulty failures infos).1 ↔
          (alookup x.addr failures).getD 0 + 1 = 3)) ∧
      (¬ (x.height + 2 ≤ my_height ∧ x.total_difficulty < my_difficulty) →
        alookup x.addr (underperfStep my_height my_difficulty failures infos).2 = none ∧
        x.addr ∉ (underperfStep my_height my_difficulty failures infos).1)

/-- Claim C6 as stated: every reader-loop iteration records its bytes on
the received tracker, quietly exactly for attachment chunks and header
batches with `remaining > 0`. -/
def claim_C6_statement : Prop :=
  ∀ (syncing : Bool) (tracker : RateCounter) (now : Nat) (next : ReadResult)
    (bytes_read : Nat),
    (readerTrackerUpdate syncing tracker now next bytes_read).entries =
      tracker.entries ++ [{ bytes := bytes_read, quiet := isQuietRead next, time := now }]

/-- Claim C7 as stated: `wait_for_min_peers` returns exactly when at least
3 connected outbound peers strictly exceed the local head's difficulty, or
at the 30-second (`AwaitingPeers`) respectively 3-second budget, whichever
comes first. -/
def claim_C7_statement : Prop :=
  ∀ (obs : Nat → List Peer) (head_total_difficulty : Nat) (status : SyncStatus),
    (∀ n, n < waitForMinPeersSleeps (fun _ => false)
        (fun k => wpCount (obs k) head_total_difficulty) (waitSecs status) →
      strictExceedCount (obs n) head_total_difficulty < MIN_PEERS) →
    (MIN_PEERS ≤ strictExceedCount
        (obs (waitForMinPeersSleeps (fun _ => false)
          (fun k => wpCount (obs k) head_total_difficulty) (waitSecs status)))
        head_total_difficulty ∨
      waitForMinPeersSleeps (fun _ => false)
          (fun k => wpCount (obs k) head_total_difficulty) (waitSecs status) =
        waitSecs status)

/-- Claim C8 as stated: `unban_peer` turns a stored `Banned` record
`Healthy`; every other address — not banned or not present — fails with
`PeerNotBanned` and leaves the store unchanged. -/
def claim_C8_statement : Prop :=
  ∀ (ps : Peers) (addr : PeerAddr),
    (∀ pd, alookup addr ps.store = some pd → pd.flags = State.Banned →
      (ps.unban_peer addr).2 = Except.ok () ∧
      alookup addr (ps.unban_peer addr).1.store = some { pd with flags := State.Healthy }) ∧
    (∀ pd, alookup addr ps.store = some pd → pd.flags ≠ State.Banned →
      ps.unban_peer addr = (ps, Except.error Error.PeerNotBanned)) ∧
    (alookup addr ps.store = none →
      ps.unban_peer addr = (ps, Except.error Error.PeerNotBanned))

/-- A neutral peer-info literal used by the concrete test states. -/
def exInfo (a : PeerAddr) (dir : Direction) (height total_difficulty : Nat) : PeerInfo :=
  { addr := a, direction := dir, capabilities := 0, user_agent := "",
    tx_base_fee := 10, height := height, total_difficulty := total_difficulty }

/-- A live peer literal with the given connection and flags. -/
def exPeer (a : PeerAddr) (dir : Direction) (height total_difficulty : Nat)
    (disconnected : Bool) : Peer :=
  { info := exInfo a dir height total_difficulty,
    conn := { cap := SEND_CHANNEL_CAP, queue := [], disconnected := disconnected },
    banned := false, stopped := false, connectedFlag := true,
    abusiveFlag := false, stuckFlag := false }

/-- A healthy stored record for an address. -/
def exPD (a : PeerAddr) : PeerData :=
  { addr := a, capabilities := 0, user_agent := "", flags := State.Healthy,
    last_banned := 0, ban_reason := ReasonForBan.None, last_connected := 0 }

/-- Registry state for the C2 counterexample: one connected stored peer
whose outbound channel is disconnected, so the ban notification fails. -/
def exPsDisc : Peers :=
  { peers := [(1, exPeer 1 Direction.Outbound 5 5 true)],
    store := [(1, exPD 1)], excluded := [], out_peers_failures := [], stopLog := [] }

/-- Registry state for the C2/C10 witnesses: one connected stored peer
whose channel accepts the ban notification. -/
def exPsOk : Peers :=
  { peers := [(1, exPeer 1 Direction.Outbound 5 5 false)],
    store := [(1, exPD 1)], excluded := [], out_peers_failures := [], stopLog := [] }

/-- Registry state with a banned stored record, for the C8 witness. -/
def exPsBanned : Peers :=
  { peers := [], store := [(1, { exPD 1 with flags := State.Banned })],
    excluded := [], out_peers_failures := [], stopLog := [] }

/-- Registry state for the C3 witness: three connected peers. -/
def exPsBroadcast : Peers :=
  { peers := [(1, exPeer 1 Direction.Outbound 5 5 false),
              (2, exPeer 2 Direction.Inbound 6 6 false),
              (3, exPeer 3 Direction.Outbound 7 7 false)],
    store := [], excluded := [], out_peers_failures := [], stopLog := [] }

/-- Broadcast closure for the C3 witness: succeeds on address 1, reports
already-known on address 2, errors on address 3. -/
def exBroadcastF (p : Peer) : Except Error Bool :=
  if p.info.addr = 1 then Except.ok true
  else if p.info.addr = 2 then Except.ok false
  else Except.error (Error.Send "try_send disconnected")

/-- Collaborator environment for the C9 witness: every stage succeeds and
deserialization yields transaction 7 on the decoded bytes. -/
def exApiEnv : ApiEnv :=
  { pool_upgraded := true,
    parse_body := Except.ok { tx_hex := "0a" },
    from_hex := fun s => if s = "0a" then Except.ok [10] else Except.error "bad hex",
    deserialize := fun b v => if b = [10] ∧ v = 1 then Except.ok { id := 7 }
      else Except.error "bad bin",
    chain_head := Except.ok { id := 3 },
    add_to_pool := fun _ _ _ _ => Except.ok () }

theorem alookup_aupdate_self {β : Type} (a : PeerAddr) (v : β)
    (l : List (PeerAddr × β)) :
    alookup a (aupdate a v l) = (alookup a l).map (fun _ => v) := by
  induction l with
  | nil => rfl
  | cons kv t ih =>
    obtain ⟨k, w⟩ := kv
    by_cases hk : k = a
    · simp [aupdate, alookup, hk]
    · simp [aupdate, alookup, hk, ih]

theorem alookup_eq_none_of_not_mem {β : Type} (a : PeerAddr)
    (l : List (PeerAddr × β)) (h : a ∉ l.map Prod.fst) : alookup a l = none := by
  induction l with
  | nil => rfl
  | cons kv t ih =>
    obtain ⟨k, w⟩ := kv
    rw [List.map_cons, List.mem_cons] at h
    have h1 : a ≠ k := fun hh => h (Or.inl hh)
    have h2 : a ∉ t.map Prod.fst := fun hh => h (Or.inr hh)
    simp only [alookup]
    rw [if_neg (fun hka => h1 hka.symm), ih h2]

theorem claim_C1_pre (c : SendChannel) (m : Msg) :
    (c.disconnected = false → c.queue.length < c.cap →
      ConnHandle.send c m = ({ c with queue := c.queue ++ [m] }, Except.ok ())) ∧
    (c.disconnected = false → c.cap ≤ c.queue.length →
      ConnHandle.send c m = (c, Except.ok ())) ∧
    ((ConnHandle.send c m).2 = Except.error (Error.Send "try_send disconnected") ↔
      c.disconnected = true) := by
  refine ⟨?_, ?_, ?_⟩
  · intro hd hlen
    simp [ConnHandle.send, SendChannel.trySend, hd, Nat.not_le.mpr hlen]
  · intro hd hlen
    simp [ConnHandle.send, SendChannel.trySend, hd, hlen]
  · cases hd : c.disconnected with
    | true => simp [ConnHandle.send, SendChannel.trySend, hd]
    | false =>
      by_cases hle : c.cap ≤ c.queue.length
      · simp [ConnHandle.send, SendChannel.trySend, hd, hle]
      · simp [ConnHandle.send, SendChannel.trySend, hd, hle]

/-- C1: with the bounded queue of capacity `SEND_CHANNEL_CAP = 40`,
`ConnHandle::send` enqueues and returns `Ok` when there is free space,
silently drops the message and returns `Ok` (state unchanged) when the
queue is full, and returns `Err(Send)` precisely when the receiving side
is disconnected. -/
theorem claim_C1 (c : SendChannel) (m : Msg) (hcap : c.cap = SEND_CHANNEL_CAP) :
    (c.disconnected = false → c.queue.length < SEND_CHANNEL_CAP →
      ConnHandle.send c m = ({ c with queue := c.queue ++ [m] }, Except.ok ())) ∧
    (c.disconnected = false → SEND_CHANNEL_CAP ≤ c.queue.length →
      ConnHandle.send c m = (c, Except.ok ())) ∧
    ((ConnHandle.send c m).2 = Except.error (Error.Send "try_send disconnected") ↔
      c.disconnected = true) := by
  obtain ⟨h1, h2, h3⟩ := claim_C1_pre c m
  exact ⟨fun hd hlen => h1 hd (hcap ▸ hlen), fun hd hlen => h2 hd (hcap ▸ hlen), h3⟩

/-- C1 witness: a concrete empty queue accepts the message, a concrete
full queue of 40 messages drops the 41st with `Ok`, and a concrete
disconnected queue yields `Err(Send)`. -/
theorem claim_C1_witness :
    ConnHandle.send { cap := SEND_CHANNEL_CAP, queue := [], disconnected := false }
        (Msg.Raw 0) =
      ({ cap := SEND_CHANNEL_CAP, queue := [Msg.Raw 0], disconnected := false },
        Except.ok ()) ∧
    ConnHandle.send
        { cap := SEND_CHANNEL_CAP, queue := List.replicate 40 (Msg.Raw 1),
          disconnected := false } (Msg.Raw 0) =
      ({ cap := SEND_CHANNEL_CAP, queue := List.replicate 40 (Msg.Raw 1),
         disconnected := false }, Except.ok ()) ∧
    (ConnHandle.send { cap := SEND_CHANNEL_CAP, queue := [], disconnected := true }
        (Msg.Raw 0)).2 = Except.error (Error.Send "try_send disconnected") := by
  refine ⟨?_, ?_, ?_⟩
  · exact (claim_C1 { cap := SEND_CHANNEL_CAP, queue := [], disconnected := false }
      (Msg.Raw 0) rfl).1 rfl (by decide)
  · exact (claim_C1
      { cap := SEND_CHANNEL_CAP, queue := List.replicate 40 (Msg.Raw 1),
        disconnected := false } (Msg.Raw 0) rfl).2.1 rfl (by decide)
  · exact ((claim_C1 { cap := SEND_CHANNEL_CAP, queue := [], disconnected := true }
      (Msg.Raw 0) rfl).2.2).mpr rfl

/-- C6 counterexample: while the node is syncing the reader loop performs
no tracker update at all (the spec sentence omits the
`!sync_state.is_syncing()` gate), so the claimed per-message record is
violated at a concrete syncing read. -/
theorem claim_C6_counterexample : ¬ claim_C6_statement := by
  intro h
  have h0 := h true { entries := [] } 0 (Except.ok (Message.Other 0)) 5
  simp [readerTrackerUpdate] at h0

theorem count_per_min_inc (t : RateCounter) (tm b now : Nat) :
    (t.inc tm b).count_per_min now =
      t.count_per_min now + (if now - tm < 60 then 1 else 0) := by
  by_cases h : now - tm < 60 <;>
    simp [RateCounter.inc, RateCounter.count_per_min, List.filter_append, h]

theorem count_per_min_inc_quiet (t : RateCounter) (tm b now : Nat) :
    (t.inc_quiet tm b).count_per_min now = t.count_per_min now := by
  simp [RateCounter.inc_quiet, RateCounter.count_per_min, List.filter_append]

theorem count_per_min_update (s : Bool) (t : RateCounter) (tm : Nat)
    (next : ReadResult) (b now : Nat) :
    (readerTrackerUpdate s t tm next b).count_per_min now =
      t.count_per_min now +
        (if s = false ∧ isQuietRead next = false ∧ now - tm < 60 then 1 else 0) := by
  cases s with
  | true => simp [readerTrackerUpdate]
  | false =>
    cases next with
    | error e => simp [readerTrackerUpdate, isQuietRead, count_per_min_inc]
    | ok msg =>
      cases msg with
      | Unknown tb => simp [readerTrackerUpdate, isQuietRead, count_per_min_inc]
      | Attachment l bs =>
        simp [readerTrackerUpdate, isQuietRead, count_per_min_inc_quiet]
      | Headers rem =>
        by_cases hrem : rem = 0
        · simp [readerTrackerUpdate, isQuietRead, hrem, count_per_min_inc]
        · simp [readerTrackerUpdate, isQuietRead, hrem, count_per_min_inc_quiet]
      | Other k => simp [readerTrackerUpdate, isQuietRead, count_per_min_inc]

theorem readerTrace_count (events : List ReaderEvent) (t0 : RateCounter) (now : Nat) :
    (readerTrace events t0).count_per_min now =
      t0.count_per_min now +
        (events.filter (fun e => e.syncing = false ∧ isQuietRead e.next = false ∧
          now - e.time < 60)).length := by
  induction events generalizing t0 with
  | nil => simp [readerTrace]
  | cons e es ih =>
    have hih := ih (readerTrackerUpdate e.syncing t0 e.time e.next e.bytes_read)
    simp only [readerTrace] at hih ⊢
    rw [List.foldl_cons, hih, count_per_min_update]
    by_cases hp : e.syncing = false ∧ isQuietRead e.next = false ∧ now - e.time < 60
    · simp [List.filter_cons, hp]
      omega
    · simp [List.filter_cons, hp]

/-- C6 (amended): the reader-loop tracker update happens only when the
node is not syncing; in that case attachment chunks and header batches
with `remaining > 0` are recorded quietly and everything else normally,
and over any trace the per-minute message count equals the number of
non-quiet, non-syncing increments within the window. -/
theorem claim_C6 :
    (∀ (tracker : RateCounter) (now : Nat) (next : ReadResult) (b : Nat),
      readerTrackerUpdate true tracker now next b = tracker) ∧
    (∀ (tracker : RateCounter) (now : Nat) (next : ReadResult) (b : Nat),
      (readerTrackerUpdate false tracker now next b).entries =
        tracker.entries ++ [{ bytes := b, quiet := isQuietRead next, time := now }]) ∧
    (∀ (events : List ReaderEvent) (now : Nat),
      (readerTrace events { entries := [] }).count_per_min now =
        (events.filter (fun e => e.syncing = false ∧ isQuietRead e.next = false ∧
          now - e.time < 60)).length) := by
  refine ⟨?_, ?_, ?_⟩
  · intro t now next b
    simp [readerTrackerUpdate]
  · intro t now next b
    cases next with
    | error e => simp [readerTrackerUpdate, isQuietRead, RateCounter.inc]
    | ok msg =>
      cases msg with
      | Unknown tb => simp [readerTrackerUpdate, isQuietRead, RateCounter.inc]
      | Attachment l bs =>
        simp [readerTrackerUpdate, isQuietRead, RateCounter.inc_quiet]
      | Headers rem =>
        by_cases h : rem = 0 <;>
          simp [readerTrackerUpdate, isQuietRead, h, RateCounter.inc,
            RateCounter.inc_quiet]
      | Other k => simp [readerTrackerUpdate, isQuietRead, RateCounter.inc]
  · intro events now
    rw [readerTrace_count]
    simp [RateCounter.count_per_min]

/-- C8 counterexample: on an address absent from the store, `unban_peer`
propagates the store's not-found error instead of the claimed
`PeerNotBanned`. -/
theorem claim_C8_counterexample : ¬ claim_C8_statement := by
  intro h
  have h0 := (h
    { peers := [], store := [], excluded := [],
      out_peers_failures := [], stopLog := [] } 1).2.2 rfl
  have h1 : (Peers.unban_peer
      { peers := [], store := [], excluded := [],
        out_peers_failures := [], stopLog := [] } 1).2 =
      Except.error (Error.Store "peer not found") := rfl
  rw [h0] at h1
  simp at h1

/-- C8 (amended): `unban_peer` turns a stored `Banned` record `Healthy`
and returns `Ok`; a stored record that is not banned yields
`PeerNotBanned` with the state unchanged; an address absent from the
store yields the store's not-found error with the state unchanged. -/
theorem claim_C8 (ps : Peers) (addr : PeerAddr) :
    (∀ pd, alookup addr ps.store = some pd → pd.flags = State.Banned →
      (ps.unban_peer addr).2 = Except.ok () ∧
      alookup addr (ps.unban_peer addr).1.store =
        some { pd with flags := State.Healthy }) ∧
    (∀ pd, alookup addr ps.store = some pd → pd.flags ≠ State.Banned →
      ps.unban_peer addr = (ps, Except.error Error.PeerNotBanned)) ∧
    (alookup addr ps.store = none →
      ps.unban_peer addr = (ps, Except.error (Error.Store "peer not found"))) := by
  refine ⟨?_, ?_, ?_⟩
  · intro pd hpd hb
    have hget : ps.get_peer addr = Except.ok pd := by simp [Peers.get_peer, hpd]
    have hisb : ps.is_banned addr = true := by simp [Peers.is_banned, hpd, hb]
    constructor
    · simp [Peers.unban_peer, hget, hisb, Peers.update_state, hpd]
    · simp [Peers.unban_peer, hget, hisb, Peers.update_state, hpd,
        alookup_aupdate_self]
  · intro pd hpd hb
    have hget : ps.get_peer addr = Except.ok pd := by simp [Peers.get_peer, hpd]
    have hisb : ps.is_banned addr = false := by simp [Peers.is_banned, hpd, hb]
    simp [Peers.unban_peer, hget, hisb]
  · intro hpd
    simp [Peers.unban_peer, Peers.get_peer, hpd]

/-- C8 witness: unbanning the concrete banned record yields `Ok` and a
`Healthy` stored record. -/
theorem claim_C8_witness :
    (exPsBanned.unban_peer 1).2 = Except.ok () ∧
    alookup 1 (exPsBanned.unban_peer 1).1.store =
      some { exPD 1 with flags := State.Healthy } := by
  have h := (claim_C8 exPsBanned 1).1 { exPD 1 with flags := State.Banned } rfl rfl
  exact ⟨h.1, by rw [h.2]⟩

theorem send_ok_of_not_disconnected (c : SendChannel) (m : Msg)
    (hd : c.disconnected = false) : (ConnHandle.send c m).2 = Except.ok () := by
  by_cases hle : c.cap ≤ c.queue.length <;>
    simp [ConnHandle.send, SendChannel.trySend, hd, hle]

theorem send_err_of_disconnected (c : SendChannel) (m : Msg)
    (hd : c.disconnected = true) :
    ConnHandle.send c m = (c, Except.error (Error.Send "try_send disconnected")) := by
  simp [ConnHandle.send, SendChannel.trySend, hd]

theorem ban_peer_store (ps : Peers) (addr : PeerAddr) (r : ReasonForBan) :
    (ps.ban_peer addr r).1.store = ((ps.update_state addr State.Banned).1).store := by
  unfold Peers.ban_peer
  split
  · rename_i ps1 e heq
    rw [heq]
  · rename_i ps1 u heq
    rw [heq]
    split
    · rename_i p hg
      split
      · rename_i p1 e hs
        rfl
      · rename_i p1 v hs
        rfl
    · rfl

theorem update_state_store_some {ps : Peers} {addr : PeerAddr} {pd : PeerData}
    (s : State) (hpd : alookup addr ps.store = some pd) :
    ((ps.update_state addr s).1).store = aupdate addr { pd with flags := s } ps.store := by
  simp [Peers.update_state, hpd]

/-- C10: `ban_peer` persists `Banned` before looking for a live
connection, and never rolls it back: for every address present in the
store — including addresses that then yield `Err(PeerNotFound)` and
addresses whose ban-reason notification fails — the stored record is
`Banned` after the call. -/
theorem claim_C10 (ps : Peers) (addr : PeerAddr) (r : ReasonForBan)
    (hstore : (alookup addr ps.store).isSome) :
    ∃ pd, alookup addr (ps.ban_peer addr r).1.store = some pd ∧
      pd.flags = State.Banned := by
  obtain ⟨pd, hpd⟩ := Option.isSome_iff_exists.mp hstore
  refine ⟨{ pd with flags := State.Banned }, ?_, rfl⟩
  rw [ban_peer_store, update_state_store_some State.Banned hpd,
    alookup_aupdate_self, hpd]
  rfl

/-- C10 witness: both the failing-notification state and the
no-connected-peer state leave the concrete store record `Banned`. -/
theorem claim_C10_witness :
    (∃ pd, alookup 1 (exPsDisc.ban_peer 1 ReasonForBan.ManualBan).1.store = some pd ∧
      pd.flags = State.Banned) ∧
    (∃ pd, alookup 2
        ((Peers.ban_peer { exPsOk with store := exPsOk.store ++ [(2, exPD 2)] } 2
          ReasonForBan.ManualBan)).1.store = some pd ∧
      pd.flags = State.Banned) := by
  constructor
  · exact claim_C10 exPsDisc 1 ReasonForBan.ManualBan rfl
  · exact claim_C10 { exPsOk with store := exPsOk.store ++ [(2, exPD 2)] } 2
      ReasonForBan.ManualBan rfl

/-- C2 counterexample: at a concrete registry whose connected peer has a
disconnected outbound channel, the ban-reason notification fails and the
`?` in `ban_peer` propagates the failure, so the claimed remaining steps
(`Ok`, removal, stop) do not happen. -/
theorem claim_C2_counterexample : ¬ claim_C2_statement := by
  intro h
  have h0 := ((h exPsDisc 1 ReasonForBan.ManualBan rfl).1
    (exPeer 1 Direction.Outbound 5 5 true) rfl).1
  have h1 : (exPsDisc.ban_peer 1 ReasonForBan.ManualBan).2 =
      Except.error (Error.Send "try_send disconnected") := rfl
  rw [h0] at h1
  simp at h1

/-- C2 (amended): `ban_peer` on a stored address persists `Banned`; when a
connected peer exists, a successful ban-reason notification is followed by
marking the banned flag, stopping the workers and removing the peer from
the map with `Ok`, while a failed notification (disconnected channel) makes
`ban_peer` return that send error with the live map and stop state
untouched; with no connected peer the call yields `Err(PeerNotFound)`. -/
theorem claim_C2 (ps : Peers) (addr : PeerAddr) (r : ReasonForBan)
    (hstore : (alookup addr ps.store).isSome) :
    (∀ p, ps.get_connected_peer addr = some p →
      (p.conn.disconnected = false →
        (ps.ban_peer addr r).2 = Except.ok () ∧
        (ps.ban_peer addr r).1.peers = aerase addr ps.peers ∧
        (∃ q, (ps.ban_peer addr r).1.stopLog = ps.stopLog ++ [q] ∧
          q.banned = true ∧ q.stopped = true ∧ q.info.addr = addr)) ∧
      (p.conn.disconnected = true →
        (ps.ban_peer addr r).2 = Except.error (Error.Send "try_send disconnected") ∧
        (ps.ban_peer addr r).1.peers = ps.peers ∧
        (ps.ban_peer addr r).1.stopLog = ps.stopLog)) ∧
    (ps.get_connected_peer addr = none →
      (ps.ban_peer addr r).2 = Except.error Error.PeerNotFound) ∧
    (∃ pd, alookup addr (ps.ban_peer addr r).1.store = some pd ∧
      pd.flags = State.Banned) := by
  obtain ⟨pd, hpd⟩ := Option.isSome_iff_exists.mp hstore
  have hupd : ps.update_state addr State.Banned =
      ({ ps with store := aupdate addr { pd with flags := State.Banned } ps.store },
        Except.ok ()) := by
    simp [Peers.update_state, hpd]
  refine ⟨?_, ?_, ?_⟩
  · intro p hp
    have haddr : p.info.addr = addr := by
      unfold Peers.get_connected_peer at hp
      have hfind := List.find?_some hp
      exact of_decide_eq_true hfind
    have hp1 : Peers.get_connected_peer
        { ps with store := aupdate addr { pd with flags := State.Banned } ps.store }
        addr = some p := hp
    constructor
    · intro hdisc
      rcases hc : ConnHandle.send p.conn (Msg.BanReason r) with ⟨c1, res⟩
      have hres : res = Except.ok () := by
        have hok := send_ok_of_not_disconnected p.conn (Msg.BanReason r) hdisc
        rw [hc] at hok
        exact hok
      subst hres
      have hs : p.send_ban_reason r = ({ p with conn := c1 }, Except.ok ()) := by
        unfold Peer.send_ban_reason
        rw [hc]
      have hbp : ps.ban_peer addr r =
          ({ ps with
              store := aupdate addr { pd with flags := State.Banned } ps.store,
              peers := aerase p.info.addr ps.peers,
              stopLog := ps.stopLog ++
                [{ p with conn := c1, banned := true, stopped := true }] },
            Except.ok ()) := by
        unfold Peers.ban_peer
        rw [hupd]
        simp only [hp1, hs]
      rw [hbp]
      refine ⟨rfl, ?_, ⟨{ p with conn := c1, banned := true, stopped := true },
        rfl, rfl, rfl, haddr⟩⟩
      show aerase p.info.addr ps.peers = aerase addr ps.peers
      rw [haddr]
    · intro hdisc
      have hcd := send_err_of_disconnected p.conn (Msg.BanReason r) hdisc
      have hs : p.send_ban_reason r =
          (p, Except.error (Error.Send "try_send disconnected")) := by
        unfold Peer.send_ban_reason
        rw [hcd]
      have hbp : ps.ban_peer addr r =
          ({ ps with store := aupdate addr { pd with flags := State.Banned } ps.store },
            Except.error (Error.Send "try_send disconnected")) := by
        unfold Peers.ban_peer
        rw [hupd]
        simp only [hp1, hs]
      rw [hbp]
      exact ⟨rfl, rfl, rfl⟩
  · intro hnone
    have hp1 : Peers.get_connected_peer
        { ps with store := aupdate addr { pd with flags := State.Banned } ps.store }
        addr = none := hnone
    have hbp : ps.ban_peer addr r =
        ({ ps with store := aupdate addr { pd with flags := State.Banned } ps.store },
          Except.error Error.PeerNotFound) := by
      unfold Peers.ban_peer
      rw [hupd]
      simp only [hp1]
    rw [hbp]
  · refine ⟨{ pd with flags := State.Banned }, ?_, rfl⟩
    rw [ban_peer_store, update_state_store_some State.Banned hpd,
      alookup_aupdate_self, hpd]
    rfl

/-- C2 witness: banning the concrete connected peer with a live channel
returns `Ok`, empties the live map and logs a stopped, banned peer. -/
theorem claim_C2_witness :
    (exPsOk.ban_peer 1 ReasonForBan.ManualBan).2 = Except.ok () ∧
    (exPsOk.ban_peer 1 ReasonForBan.ManualBan).1.peers = [] ∧
    (∃ q, (exPsOk.ban_peer 1 ReasonForBan.ManualBan).1.stopLog = [] ++ [q] ∧
      q.banned = true ∧ q.stopped = true ∧ q.info.addr = 1) := by
  have h := ((claim_C2 exPsOk 1 ReasonForBan.ManualBan rfl).1
    (exPeer 1 Direction.Outbound 5 5 false) rfl).1 rfl
  refine ⟨h.1, ?_, h.2.2⟩
  rw [h.2.1]
  rfl

theorem broadcastLoop_spec (f : Peer → Except Error Bool) (l : List Peer) :
    ∀ (ps : Peers) (count : Nat),
      (broadcastLoop f l ps count).2.2 = l ∧
      (broadcastLoop f l ps count).2.1 =
        count + (l.filter (fun q =>
          match f q with | Except.ok true => true | _ => false)).length ∧
      (broadcastLoop f l ps count).1.peers =
        (l.filter (fun q =>
          match f q with | Except.error _ => true | _ => false)).foldl
          (fun m q => aerase q.info.addr m) ps.peers ∧
      (broadcastLoop f l ps count).1.stopLog =
        ps.stopLog ++ l.filter (fun q =>
          match f q with | Except.error _ => true | _ => false) := by
  induction l with
  | nil =>
    intro ps count
    simp [broadcastLoop]
  | cons p rest ih =>
    intro ps count
    cases hf : f p with
    | ok b =>
      have hfilt2 : List.filter (fun q =>
          match f q with | Except.error _ => true | _ => false) (p :: rest) =
          List.filter (fun q =>
            match f q with | Except.error _ => true | _ => false) rest := by
        simp [List.filter_cons, hf]
      cases b with
      | true =>
        obtain ⟨h1, h2, h3, h4⟩ := ih ps (count + 1)
        have hstep : broadcastLoop f (p :: rest) ps count =
            ((broadcastLoop f rest ps (count + 1)).1,
             (broadcastLoop f rest ps (count + 1)).2.1,
             p :: (broadcastLoop f rest ps (count + 1)).2.2) := by
          rcases hr : broadcastLoop f rest ps (count + 1) with ⟨ps1, c1, calls⟩
          simp [broadcastLoop, hf, hr]
        rw [hstep]
        have hfilt1 : List.filter (fun q =>
            match f q with | Except.ok true => true | _ => false) (p :: rest) =
            p :: List.filter (fun q =>
              match f q with | Except.ok true => true | _ => false) rest := by
          simp [List.filter_cons, hf]
        refine ⟨by rw [h1], ?_, by rw [hfilt2]; exact h3, by rw [hfilt2]; exact h4⟩
        show (broadcastLoop f rest ps (count + 1)).2.1 = _
        rw [h2, hfilt1, List.length_cons]
        omega
      | false =>
        obtain ⟨h1, h2, h3, h4⟩ := ih ps count
        have hstep : broadcastLoop f (p :: rest) ps count =
            ((broadcastLoop f rest ps count).1,
             (broadcastLoop f rest ps count).2.1,
             p :: (broadcastLoop f rest ps count).2.2) := by
          rcases hr : broadcastLoop f rest ps count with ⟨ps1, c1, calls⟩
          simp [broadcastLoop, hf, hr]
        rw [hstep]
        have hfilt1 : List.filter (fun q =>
            match f q with | Except.ok true => true | _ => false) (p :: rest) =
            List.filter (fun q =>
              match f q with | Except.ok true => true | _ => false) rest := by
          simp [List.filter_cons, hf]
        refine ⟨by rw [h1], ?_, by rw [hfilt2]; exact h3, by rw [hfilt2]; exact h4⟩
        show (broadcastLoop f rest ps count).2.1 = _
        rw [h2, hfilt1]
    | error e =>
      obtain ⟨h1, h2, h3, h4⟩ :=
        ih { ps with peers := aerase p.info.addr ps.peers, stopLog := ps.stopLog ++ [p] } count
      have hstep : broadcastLoop f (p :: rest) ps count =
          ((broadcastLoop f rest { ps with peers := aerase p.info.addr ps.peers, stopLog := ps.stopLog ++ [p] } count).1,
           (broadcastLoop f rest { ps with peers := aerase p.info.addr ps.peers, stopLog := ps.stopLog ++ [p] } count).2.1,
           p :: (broadcastLoop f rest { ps with peers := aerase p.info.addr ps.peers, stopLog := ps.stopLog ++ [p] } count).2.2) := by
        rcases hr : broadcastLoop f rest { ps with peers := aerase p.info.addr ps.peers, stopLog := ps.stopLog ++ [p] } count with ⟨ps1, c1, calls⟩
        simp [broadcastLoop, hf, hr]
      rw [hstep]
      have hfilt1 : List.filter (fun q =>
          match f q with | Except.ok true => true | _ => false) (p :: rest) =
          List.filter (fun q =>
            match f q with | Except.ok true => true | _ => false) rest := by
        simp [List.filter_cons, hf]
      have hfilt2 : List.filter (fun q =>
          match f q with | Except.error _ => true | _ => false) (p :: rest) =
          p :: List.filter (fun q =>
            match f q with | Except.error _ => true | _ => false) rest := by
        simp [List.filter_cons, hf]
      refine ⟨by rw [h1], by rw [hfilt1]; exact h2, ?_, ?_⟩
      · rw [hfilt2, List.foldl_cons]
        exact h3
      · rw [hfilt2, h4]
        show (ps.stopLog ++ [p]) ++ _ = _
        simp

theorem connectedList_addr_nodup (ps : Peers)
    (hnd : (ps.peers.map Prod.fst).Nodup)
    (hcoh : ∀ kv ∈ ps.peers, kv.2.info.addr = kv.1) :
    (ps.connectedList.map (fun p => p.info.addr)).Nodup := by
  have e1 : ((ps.peers.filter (fun kv => ¬ ps.excluded.contains kv.1)).map
        Prod.snd).map (fun p => p.info.addr) =
      (ps.peers.filter (fun kv => ¬ ps.excluded.contains kv.1)).map Prod.fst := by
    rw [List.map_map]
    apply List.map_congr_left
    intro kv hkv
    exact hcoh kv (List.mem_of_mem_filter hkv)
  have hnd2 : ((ps.peers.filter (fun kv => ¬ ps.excluded.contains kv.1)).map
      Prod.fst).Nodup :=
    hnd.sublist ((List.filter_sublist ps.peers).map Prod.fst)
  have hs : ((ps.connectedList).map (fun p => p.info.addr)).Sublist
      (((ps.peers.filter (fun kv => ¬ ps.excluded.contains kv.1)).map
        Prod.snd).map (fun p => p.info.addr)) := by
    unfold Peers.connectedList Peers.iterList
    exact (List.filter_sublist _).map _
  rw [e1] at hs
  exact hnd2.sublist hs

/-- C3: broadcast applies the send closure exactly once to each peer that
was connected and not excluded at the start (no duplicate addresses given
unique map keys), returns the number of `Ok(true)` outcomes, and stops and
removes precisely the erring peers without preventing the remaining
sends from being attempted. -/
theorem claim_C3 (ps : Peers) (f : Peer → Except Error Bool)
    (hnd : (ps.peers.map Prod.fst).Nodup)
    (hcoh : ∀ kv ∈ ps.peers, kv.2.info.addr = kv.1) :
    (ps.broadcast f).2.2 = ps.connectedList ∧
    (((ps.broadcast f).2.2).map (fun p => p.info.addr)).Nodup ∧
    (ps.broadcast f).2.1 =
      (ps.connectedList.filter (fun q =>
        match f q with | Except.ok true => true | _ => false)).length ∧
    (ps.broadcast f).1.stopLog =
      ps.stopLog ++ ps.connectedList.filter (fun q =>
        match f q with | Except.error _ => true | _ => false) ∧
    (ps.broadcast f).1.peers =
      (ps.connectedList.filter (fun q =>
        match f q with | Except.error _ => true | _ => false)).foldl
        (fun m q => aerase q.info.addr m) ps.peers := by
  obtain ⟨h1, h2, h3, h4⟩ := broadcastLoop_spec f ps.connectedList ps 0
  unfold Peers.broadcast
  refine ⟨h1, ?_, ?_, h4, h3⟩
  · rw [h1]
    exact connectedList_addr_nodup ps hnd hcoh
  · rw [h2]
    omega

/-- C3 witness: on the concrete three-peer registry, the closure succeeds
on peer 1, reports already-known on peer 2 and errors on peer 3; the count
is 1, peer 3 is stopped and only peers 1 and 2 remain. -/
theorem claim_C3_witness :
    (exPsBroadcast.broadcast exBroadcastF).2.1 = 1 ∧
    (exPsBroadcast.broadcast exBroadcastF).1.stopLog =
      [exPeer 3 Direction.Outbound 7 7 false] ∧
    (exPsBroadcast.broadcast exBroadcastF).1.peers =
      [(1, exPeer 1 Direction.Outbound 5 5 false),
       (2, exPeer 2 Direction.Inbound 6 6 false)] := by
  have h := claim_C3 exPsBroadcast exBroadcastF (by decide) (by decide)
  refine ⟨?_, ?_, ?_⟩
  · rw [h.2.2.1]
    rfl
  · rw [h.2.2.2.1]
    rfl
  · rw [h.2.2.2.2]
    rfl

theorem update_state_preserves (ps : Peers) (addr : PeerAddr) (s : State) :
    ((ps.update_state addr s).1).peers = ps.peers ∧
    ((ps.update_state addr s).1).excluded = ps.excluded ∧
    ((ps.update_state addr s).1).out_peers_failures = ps.out_peers_failures ∧
    ((ps.update_state addr s).1).stopLog = ps.stopLog := by
  unfold Peers.update_state
  cases alookup addr ps.store <;> exact ⟨rfl, rfl, rfl, rfl⟩

theorem cleanStep1Body_preserves (ctx : AdapterCtx) (acc : Peers × List PeerAddr)
    (x : Peer) :
    ((cleanStep1Body ctx acc x).1).peers = acc.1.peers ∧
    ((cleanStep1Body ctx acc x).1).excluded = acc.1.excluded ∧
    ((cleanStep1Body ctx acc x).1).out_peers_failures = acc.1.out_peers_failures := by
  unfold cleanStep1Body
  cases htd : ctx.total_difficulty with
  | ok td =>
    dsimp only
    split_ifs <;>
      first
      | exact ⟨rfl, rfl, rfl⟩
      | exact ⟨(update_state_preserves acc.1 x.info.addr State.Banned).1,
          (update_state_preserves acc.1 x.info.addr State.Banned).2.1,
          (update_state_preserves acc.1 x.info.addr State.Banned).2.2.1⟩
      | exact ⟨(update_state_preserves acc.1 x.info.addr State.Defunct).1,
          (update_state_preserves acc.1 x.info.addr State.Defunct).2.1,
          (update_state_preserves acc.1 x.info.addr State.Defunct).2.2.1⟩
  | error e =>
    dsimp only
    split_ifs <;>
      first
      | exact ⟨rfl, rfl, rfl⟩
      | exact ⟨(update_state_preserves acc.1 x.info.addr State.Banned).1,
          (update_state_preserves acc.1 x.info.addr State.Banned).2.1,
          (update_state_preserves acc.1 x.info.addr State.Banned).2.2.1⟩

theorem cleanStep1_fold_preserves (ctx : AdapterCtx) (l : List Peer) :
    ∀ (acc : Peers × List PeerAddr),
      ((l.foldl (cleanStep1Body ctx) acc).1).peers = acc.1.peers ∧
      ((l.foldl (cleanStep1Body ctx) acc).1).excluded = acc.1.excluded ∧
      ((l.foldl (cleanStep1Body ctx) acc).1).out_peers_failures =
        acc.1.out_peers_failures := by
  induction l with
  | nil => intro acc; exact ⟨rfl, rfl, rfl⟩
  | cons x t ih =>
    intro acc
    rw [List.foldl_cons]
    obtain ⟨i1, i2, i3⟩ := ih (cleanStep1Body ctx acc x)
    obtain ⟨b1, b2, b3⟩ := cleanStep1Body_preserves ctx acc x
    exact ⟨i1.trans b1, i2.trans b2, i3.trans b3⟩

theorem cleanStep1_preserves (ctx : AdapterCtx) (ps : Peers) :
    ((cleanStep1 ctx ps).1).peers = ps.peers ∧
    ((cleanStep1 ctx ps).1).excluded = ps.excluded ∧
    ((cleanStep1 ctx ps).1).out_peers_failures = ps.out_peers_failures :=
  cleanStep1_fold_preserves ctx ps.iterList (ps, [])

theorem removeAll_failures (rm : List PeerAddr) :
    ∀ (ps : Peers), (ps.removeAll rm).out_peers_failures = ps.out_peers_failures := by
  induction rm with
  | nil => intro ps; rfl
  | cons a t ih =>
    intro ps
    cases halk : alookup a ps.peers with
    | some p =>
      have hstep : Peers.removeAll ps (a :: t) =
          Peers.removeAll { ps with stopLog := ps.stopLog ++ [p], peers := aerase a ps.peers } t := by
        unfold Peers.removeAll
        rw [List.foldl_cons]
        simp only [halk]
      rw [hstep, ih]
    | none =>
      have hstep : Peers.removeAll ps (a :: t) =
          Peers.removeAll { ps with peers := aerase a ps.peers } t := by
        unfold Peers.removeAll
        rw [List.foldl_cons]
        simp only [halk]
      rw [hstep, ih]

theorem cleanCandidates_congr (ps ps' : Peers) (pref : List PeerAddr)
    (hp : ps'.peers = ps.peers) (he : ps'.excluded = ps.excluded) :
    ps'.cleanCandidates pref = ps.cleanCandidates pref := by
  unfold Peers.cleanCandidates Peers.outboundConnected Peers.iterList
  rw [hp, he]

theorem underperf_not_mem (my_h my_d : Nat) (failures : List (PeerAddr × Nat))
    (infos : List PeerInfo) (a : PeerAddr) (ha : a ∉ infos.map PeerInfo.addr) :
    a ∉ (underperfStep my_h my_d failures infos).1 ∧
    alookup a (underperfStep my_h my_d failures infos).2 = none := by
  induction infos with
  | nil => exact ⟨List.not_mem_nil a, rfl⟩
  | cons x rest ih =>
    rw [List.map_cons, List.mem_cons] at ha
    have hax : a ≠ x.addr := fun hh => ha (Or.inl hh)
    have harest : a ∉ rest.map PeerInfo.addr := fun hh => ha (Or.inr hh)
    obtain ⟨ih1, ih2⟩ := ih harest
    by_cases hm : x.height < my_h - 2 ∧ x.total_difficulty < my_d
    · have hstep : underperfStep my_h my_d failures (x :: rest) =
          ((if 3 ≤ (alookup x.addr failures).getD 0 + 1 then [x.addr] else []) ++
            (underperfStep my_h my_d failures rest).1,
           (x.addr, (alookup x.addr failures).getD 0 + 1) ::
            (underperfStep my_h my_d failures rest).2) := by
        simp only [underperfStep]
        rw [if_pos hm]
      rw [hstep]
      constructor
      · intro hmem
        rw [List.mem_append] at hmem
        rcases hmem with h0 | h0
        · by_cases hc : 3 ≤ (alookup x.addr failures).getD 0 + 1
          · rw [if_pos hc] at h0
            exact hax (List.mem_singleton.mp h0)
          · rw [if_neg hc] at h0
            exact absurd h0 (List.not_mem_nil a)
        · exact ih1 h0
      · simp only [alookup]
        rw [if_neg (fun hh => hax hh.symm)]
        exact ih2
    · have hstep : underperfStep my_h my_d failures (x :: rest) =
          underperfStep my_h my_d failures rest := by
        simp only [underperfStep]
        rw [if_neg hm]
      rw [hstep]
      exact ⟨ih1, ih2⟩

/-- C4 counterexample: a non-preferred outbound peer exactly 2 below the
local height (the claimed boundary) with lower difficulty does not get its
counter incremented, because the code tests `height < my_height - 2`
(strictly more than 2 behind). -/
theorem claim_C4_counterexample : ¬ claim_C4_statement := by
  intro h
  have h0 := ((h 10 10 [] [exInfo 9 Direction.Outbound 8 5] (by decide)
    (exInfo 9 Direction.Outbound 8 5) (by simp)).1 (by decide)).1
  have h1 : alookup (exInfo 9 Direction.Outbound 8 5).addr
      (underperfStep 10 10 [] [exInfo 9 Direction.Outbound 8 5]).2 =
      (none : Option Nat) := rfl
  rw [h0] at h1
  simp at h1

/-- C4 (amended): in the underperformance pass a non-preferred connected
outbound candidate gets its consecutive-failure counter incremented
exactly when its height is strictly more than 2 below the local height
(code: `height < my_height - 2`) and its difficulty is below ours; it
joins the removal set exactly when the incremented counter reaches at
least 3; every candidate not matching this cycle has its counter reset
(dropped from the fresh map); and `clean_peers` installs exactly the
fresh map produced by this pass. -/
theorem claim_C4 (my_h my_d : Nat) (failures : List (PeerAddr × Nat))
    (infos : List PeerInfo) (hnd : (infos.map PeerInfo.addr).Nodup)
    (x : PeerInfo) (hx : x ∈ infos) :
    ((x.height < my_h - 2 ∧ x.total_difficulty < my_d) →
      alookup x.addr (underperfStep my_h my_d failures infos).2 =
        some ((alookup x.addr failures).getD 0 + 1) ∧
      (x.addr ∈ (underperfStep my_h my_d failures infos).1 ↔
        3 ≤ (alookup x.addr failures).getD 0 + 1)) ∧
    (¬ (x.height < my_h - 2 ∧ x.total_difficulty < my_d) →
      alookup x.addr (underperfStep my_h my_d failures infos).2 = none ∧
      x.addr ∉ (underperfStep my_h my_d failures infos).1) ∧
    (∀ (ctx : AdapterCtx) (ps : Peers) (mi mo bc : Nat) (pref : List PeerAddr),
      (Peers.clean_peers ctx ps mi mo bc pref).out_peers_failures =
        (underperfStep (ctx.total_height.toOption.getD 0)
          (ctx.total_difficulty.toOption.getD 0) ps.out_peers_failures
          (ps.cleanCandidates pref)).2) := by
  have htie : ∀ (ctx : AdapterCtx) (ps : Peers) (mi mo bc : Nat)
      (pref : List PeerAddr),
      (Peers.clean_peers ctx ps mi mo bc pref).out_peers_failures =
        (underperfStep (ctx.total_height.toOption.getD 0)
          (ctx.total_difficulty.toOption.getD 0) ps.out_peers_failures
          (ps.cleanCandidates pref)).2 := by
    intro ctx ps mi mo bc pref
    rcases hc1 : cleanStep1 ctx ps with ⟨ps1, rm1⟩
    have hpres := cleanStep1_preserves ctx ps
    rw [hc1] at hpres
    obtain ⟨hp1, he1, hf1⟩ := hpres
    rcases hup : underperfStep (ctx.total_height.toOption.getD 0)
      (ctx.total_difficulty.toOption.getD 0) ps1.out_peers_failures
      (ps1.cleanCandidates pref) with ⟨rm4, nf⟩
    have hcp : Peers.clean_peers ctx ps mi mo bc pref =
        Peers.removeAll { ps1 with out_peers_failures := nf }
          (rm1 ++ cleanBoost ps1 mo bc pref ++ rm4 ++
            (excessOutboundStep ctx.accept_fee_base
              (Nat.min 2 (ps1.outboundConnected.length - mo) - rm4.length)
              (ps1.cleanCandidates pref)).map PeerInfo.addr ++
            cleanInbound ps1 mi pref) := by
      unfold Peers.clean_peers
      rw [hc1]
      dsimp only
      rw [hup]
    rw [hcp, removeAll_failures]
    have hcc : ps1.cleanCandidates pref = ps.cleanCandidates pref :=
      cleanCandidates_congr ps ps1 pref hp1 he1
    rw [← hcc, ← hf1, hup]
  have hAB : ∀ (l : List PeerInfo), (l.map PeerInfo.addr).Nodup → ∀ y ∈ l,
      ((y.height < my_h - 2 ∧ y.total_difficulty < my_d) →
        alookup y.addr (underperfStep my_h my_d failures l).2 =
          some ((alookup y.addr failures).getD 0 + 1) ∧
        (y.addr ∈ (underperfStep my_h my_d failures l).1 ↔
          3 ≤ (alookup y.addr failures).getD 0 + 1)) ∧
      (¬ (y.height < my_h - 2 ∧ y.total_difficulty < my_d) →
        alookup y.addr (underperfStep my_h my_d failures l).2 = none ∧
        y.addr ∉ (underperfStep my_h my_d failures l).1) := by
    intro l
    induction l with
    | nil =>
      intro _ y hy
      exact absurd hy (List.not_mem_nil y)
    | cons p rest ih =>
      intro hnd2 y hy
      rw [List.map_cons] at hnd2
      have hpnotin : p.addr ∉ rest.map PeerInfo.addr := (List.nodup_cons.mp hnd2).1
      have hndrest : (rest.map PeerInfo.addr).Nodup := (List.nodup_cons.mp hnd2).2
      by_cases hm : p.height < my_h - 2 ∧ p.total_difficulty < my_d
      · have hstep : underperfStep my_h my_d failures (p :: rest) =
            ((if 3 ≤ (alookup p.addr failures).getD 0 + 1 then [p.addr] else []) ++
              (underperfStep my_h my_d failures rest).1,
             (p.addr, (alookup p.addr failures).getD 0 + 1) ::
              (underperfStep my_h my_d failures rest).2) := by
          simp only [underperfStep]
          rw [if_pos hm]
        rw [hstep]
        rcases List.mem_cons.mp hy with hyp | hyr
        · subst hyp
          refine ⟨fun _ => ⟨?_, ?_, ?_⟩, fun hcon => absurd hm hcon⟩
          · simp [alookup]
          · intro hmem
            rw [List.mem_append] at hmem
            rcases hmem with h0 | h0
            · by_cases hc : 3 ≤ (alookup y.addr failures).getD 0 + 1
              · exact hc
              · rw [if_neg hc] at h0
                exact absurd h0 (List.not_mem_nil _)
            · exact absurd h0
                (underperf_not_mem my_h my_d failures rest y.addr hpnotin).1
          · intro hc
            rw [if_pos hc]
            exact List.mem_append_left _ (List.mem_singleton.mpr rfl)
        · have hyaddr_ne : y.addr ≠ p.addr := by
            intro he
            exact hpnotin (he ▸ List.mem_map_of_mem PeerInfo.addr hyr)
          obtain ⟨ihA, ihB⟩ := ih hndrest y hyr
          refine ⟨?_, ?_⟩
          · intro hmy
            obtain ⟨e1, e2⟩ := ihA hmy
            refine ⟨?_, ?_, ?_⟩
            · simp only [alookup]
              rw [if_neg (fun hh => hyaddr_ne hh.symm)]
              exact e1
            · intro hmem
              rw [List.mem_append] at hmem
              rcases hmem with h0 | h0
              · by_cases hc : 3 ≤ (alookup p.addr failures).getD 0 + 1
                · rw [if_pos hc] at h0
                  exact absurd (List.mem_singleton.mp h0) hyaddr_ne
                · rw [if_neg hc] at h0
                  exact absurd h0 (List.not_mem_nil _)
              · exact e2.mp h0
            · intro hc
              exact List.mem_append_right _ (e2.mpr hc)
          · intro hmy
            obtain ⟨e1, e2⟩ := ihB hmy
            refine ⟨?_, ?_⟩
            · simp only [alookup]
              rw [if_neg (fun hh => hyaddr_ne hh.symm)]
              exact e1
            · intro hmem
              rw [List.mem_append] at hmem
              rcases hmem with h0 | h0
              · by_cases hc : 3 ≤ (alookup p.addr failures).getD 0 + 1
                · rw [if_pos hc] at h0
                  exact absurd (List.mem_singleton.mp h0) hyaddr_ne
                · rw [if_neg hc] at h0
                  exact absurd h0 (List.not_mem_nil _)
              · exact e2 h0
      · have hstep : underperfStep my_h my_d failures (p :: rest) =
            underperfStep my_h my_d failures rest := by
          simp only [underperfStep]
          rw [if_neg hm]
        rw [hstep]
        rcases List.mem_cons.mp hy with hyp | hyr
        · subst hyp
          refine ⟨fun hmy => absurd hmy hm, fun _ => ?_⟩
          obtain ⟨u1, u2⟩ := underperf_not_mem my_h my_d failures rest y.addr hpnotin
          exact ⟨u2, u1⟩
        · exact ih hndrest y hyr
  exact ⟨(hAB infos hnd x hx).1, (hAB infos hnd x hx).2, htie⟩

/-- C4 witness: a concrete outbound candidate 5 blocks behind with prior
counter 2 is incremented to 3 and joins the removal set. -/
theorem claim_C4_witness :
    alookup (exInfo 7 Direction.Outbound 5 3).addr
      (underperfStep 10 10 [(7, 2)] [exInfo 7 Direction.Outbound 5 3]).2 = some 3 ∧
    (exInfo 7 Direction.Outbound 5 3).addr ∈
      (underperfStep 10 10 [(7, 2)] [exInfo 7 Direction.Outbound 5 3]).1 := by
  have h := (claim_C4 10 10 [(7, 2)] [exInfo 7 Direction.Outbound 5 3] (by decide)
    (exInfo 7 Direction.Outbound 5 3) (by simp)).1 (by decide)
  exact ⟨h.1, h.2.mpr (by decide)⟩

/-- C5: the excess-outbound step of `clean_peers` — invoked with the
budget `min 2 (outbound - max_outbound)` reduced by the underperformance
removals — appends at most `min 2 (outbound - max_outbound)` victims, and
they are lowest-ranked by the halved-score ordering: every chosen peer
scores no higher than every remaining candidate. -/
theorem claim_C5 (my_base_fee excess0 sub : Nat) (infos : List PeerInfo) :
    (excessOutboundStep my_base_fee (Nat.min 2 excess0 - sub) infos).length ≤
      Nat.min 2 excess0 ∧
    ∃ rest,
      ((excessOutboundStep my_base_fee (Nat.min 2 excess0 - sub) infos) ++ rest).Perm
        infos ∧
      ∀ a ∈ excessOutboundStep my_base_fee (Nat.min 2 excess0 - sub) infos,
        ∀ b ∈ rest, peerScore my_base_fee a ≤ peerScore my_base_fee b := by
  by_cases hpos : 0 < Nat.min 2 excess0 - sub
  · have hstep : excessOutboundStep my_base_fee (Nat.min 2 excess0 - sub) infos =
        (infos.mergeSort (fun a b =>
          peerScore my_base_fee a ≤ peerScore my_base_fee b)).take
          (Nat.min 2 excess0 - sub) := by
      unfold excessOutboundStep
      rw [if_pos hpos]
    rw [hstep]
    constructor
    · calc ((infos.mergeSort (fun a b =>
            peerScore my_base_fee a ≤ peerScore my_base_fee b)).take
            (Nat.min 2 excess0 - sub)).length ≤ Nat.min 2 excess0 - sub := by
            rw [List.length_take]
            exact min_le_left _ _
        _ ≤ Nat.min 2 excess0 := Nat.sub_le _ _
    · refine ⟨(infos.mergeSort (fun a b =>
        peerScore my_base_fee a ≤ peerScore my_base_fee b)).drop
        (Nat.min 2 excess0 - sub), ?_, ?_⟩
      · rw [List.take_append_drop]
        exact List.mergeSort_perm infos _
      · have hsorted := @List.sorted_mergeSort PeerInfo
          (fun a b => decide (peerScore my_base_fee a ≤ peerScore my_base_fee b))
          (fun a b c hab hbc => by
            simp only [decide_eq_true_eq] at *
            exact le_trans hab hbc)
          (fun a b => by
            rcases Nat.le_total (peerScore my_base_fee a) (peerScore my_base_fee b)
              with h | h <;> simp [h])
          infos
        rw [← List.take_append_drop (Nat.min 2 excess0 - sub)
          (infos.mergeSort (fun a b =>
            peerScore my_base_fee a ≤ peerScore my_base_fee b))] at hsorted
        rw [List.pairwise_append] at hsorted
        intro a ha b hb
        exact of_decide_eq_true (hsorted.2.2 a ha b hb)
  · have hstep : excessOutboundStep my_base_fee (Nat.min 2 excess0 - sub) infos = [] := by
      unfold excessOutboundStep
      rw [if_neg hpos]
    rw [hstep]
    refine ⟨by simp, infos, by simp, ?_⟩
    intro a ha
    exact absurd ha (List.not_mem_nil a)

/-- C5 witness: with three candidates, excess budget 2 and a halved score
for the low-fee peer, the two lowest-ranked victims are chosen and every
chosen score is bounded by every remaining score. -/
theorem claim_C5_witness :
    (excessOutboundStep 10 (Nat.min 2 5 - 0)
      [exInfo 1 Direction.Outbound 0 9, exInfo 2 Direction.Outbound 0 4,
       exInfo 3 Direction.Outbound 0 6]).length ≤ Nat.min 2 5 :=
  (claim_C5 10 5 0
    [exInfo 1 Direction.Outbound 0 9, exInfo 2 Direction.Outbound 0 4,
     exInfo 3 Direction.Outbound 0 6]).1

theorem waitLoopAux_spec (wp : Nat → Nat) (ws : Nat) :
    ∀ (fuel n : Nat), n ≤ ws + 1 → ws + 2 ≤ n + fuel →
      n ≤ waitLoopAux (fun _ => false) wp ws fuel n ∧
      waitLoopAux (fun _ => false) wp ws fuel n ≤ ws + 1 ∧
      (∀ m, n ≤ m → m < waitLoopAux (fun _ => false) wp ws fuel n →
        wp m < MIN_PEERS) ∧
      (MIN_PEERS ≤ wp (waitLoopAux (fun _ => false) wp ws fuel n) ∨
        waitLoopAux (fun _ => false) wp ws fuel n = ws + 1) := by
  intro fuel
  induction fuel with
  | zero =>
    intro n h1 h2
    omega
  | succ fuel ih =>
    intro n h1 h2
    have hred : waitLoopAux (fun _ => false) wp ws (fuel + 1) n =
        if MIN_PEERS ≤ wp n ∨ ws < n then n
        else waitLoopAux (fun _ => false) wp ws fuel (n + 1) := by
      simp [waitLoopAux]
    rw [hred]
    by_cases hcond : MIN_PEERS ≤ wp n ∨ ws < n
    · rw [if_pos hcond]
      refine ⟨Nat.le_refl n, h1, fun m hm1 hm2 => absurd hm1 (by omega), ?_⟩
      rcases hcond with hc | hc
      · exact Or.inl hc
      · exact Or.inr (by omega)
    · rw [if_neg hcond]
      push_neg at hcond
      obtain ⟨ih1, ih2, ih3, ih4⟩ := ih (n + 1) (by omega) (by omega)
      refine ⟨by omega, ih2, ?_, ih4⟩
      intro m hm1 hm2
      by_cases hmn : m = n
      · subst hmn
        exact hcond.1
      · exact ih3 m (by omega) hm2

/-- C7 counterexample: with three connected outbound peers whose total
difficulty exactly equals the local head's, `wait_for_min_peers` returns
immediately (the code tests `x >= head.total_difficulty`), although no
peer strictly exceeds the local difficulty and the 30-second budget has
not elapsed — refuting the spec's "exceed" reading. -/
theorem claim_C7_counterexample : ¬ claim_C7_statement := by
  intro h
  have hsleeps : waitForMinPeersSleeps (fun _ => false)
      (fun k => wpCount ((fun _ : Nat => [exPeer 1 Direction.Outbound 5 5 false,
        exPeer 2 Direction.Outbound 5 5 false,
        exPeer 3 Direction.Outbound 5 5 false]) k) 5)
      (waitSecs SyncStatus.AwaitingPeers) = 0 := rfl
  have h0 := h (fun _ => [exPeer 1 Direction.Outbound 5 5 false,
    exPeer 2 Direction.Outbound 5 5 false, exPeer 3 Direction.Outbound 5 5 false])
    5 SyncStatus.AwaitingPeers ?_
  · rw [hsleeps] at h0
    exact absurd h0 (by decide)
  · intro n hn
    rw [hsleeps] at hn
    exact absurd hn (Nat.not_lt_zero n)

/-- C7 (amended): `wait_for_min_peers` sleeps at most `wait_secs + 1`
seconds (31 in `AwaitingPeers`, 4 otherwise); before it returns, every
observed count of connected outbound peers with positive difficulty at
least the local head's is below 3; and on return either that count has
reached 3 or the full budget elapsed — whichever comes first. -/
theorem claim_C7 (obs : Nat → List Peer) (head_td : Nat) (status : SyncStatus) :
    waitForMinPeersSleeps (fun _ => false)
        (fun k => wpCount (obs k) head_td) (waitSecs status) ≤ waitSecs status + 1 ∧
    (∀ n, n < waitForMinPeersSleeps (fun _ => false)
        (fun k => wpCount (obs k) head_td) (waitSecs status) →
      wpCount (obs n) head_td < MIN_PEERS) ∧
    (MIN_PEERS ≤ wpCount (obs (waitForMinPeersSleeps (fun _ => false)
        (fun k => wpCount (obs k) head_td) (waitSecs status))) head_td ∨
      waitForMinPeersSleeps (fun _ => false)
        (fun k => wpCount (obs k) head_td) (waitSecs status) = waitSecs status + 1) := by
  obtain ⟨h1, h2, h3, h4⟩ := waitLoopAux_spec (fun k => wpCount (obs k) head_td)
    (waitSecs status) (waitSecs status + 2) 0 (by omega) (by omega)
  exact ⟨h2, fun n hn => h3 n (Nat.zero_le n) hn, h4⟩

/-- C9: `update_pool` deserializes the hex body at fixed protocol version
1 and, on success of every stage, invokes `add_to_pool` exactly once with
source `PushApi`, the decoded transaction, stem flag `!fluff` and the
current chain head; a hex-decode, deserialization or chain-head failure
returns an error with `add_to_pool` never invoked. -/
theorem claim_C9 (env : ApiEnv) (fluff : Bool) :
    ((update_pool env fluff).1 = Except.ok () →
      ∃ wrapper tx_bin tx header,
        env.parse_body = Except.ok wrapper ∧
        env.from_hex wrapper.tx_hex = Except.ok tx_bin ∧
        env.deserialize tx_bin 1 = Except.ok tx ∧
        env.chain_head = Except.ok header ∧
        (update_pool env fluff).2 =
          [{ source := TxSource.PushApi, tx := tx, stem := !fluff,
             header := header }]) ∧
    (∀ wrapper e, env.parse_body = Except.ok wrapper →
      env.from_hex wrapper.tx_hex = Except.error e →
      (update_pool env fluff).2 = [] ∧
      ∀ u, (update_pool env fluff).1 ≠ Except.ok u) ∧
    (∀ wrapper tx_bin e, env.parse_body = Except.ok wrapper →
      env.from_hex wrapper.tx_hex = Except.ok tx_bin →
      env.deserialize tx_bin 1 = Except.error e →
      (update_pool env fluff).2 = [] ∧
      ∀ u, (update_pool env fluff).1 ≠ Except.ok u) ∧
    (∀ wrapper tx_bin tx e, env.parse_body = Except.ok wrapper →
      env.from_hex wrapper.tx_hex = Except.ok tx_bin →
      env.deserialize tx_bin 1 = Except.ok tx →
      env.chain_head = Except.error e →
      (update_pool env fluff).2 = [] ∧
      ∀ u, (update_pool env fluff).1 ≠ Except.ok u) := by
  cases hup : env.pool_upgraded with
  | false =>
    have hr : update_pool env fluff = (Except.error ApiError.WeakRef, []) := by
      simp [update_pool, hup]
    refine ⟨?_, ?_, ?_, ?_⟩
    · intro hok
      rw [hr] at hok
      simp at hok
    · intro w e _ _
      rw [hr]
      exact ⟨rfl, fun u h => by simp at h⟩
    · intro w b e _ _ _
      rw [hr]
      exact ⟨rfl, fun u h => by simp at h⟩
    · intro w b t e _ _ _ _
      rw [hr]
      exact ⟨rfl, fun u h => by simp at h⟩
  | true =>
    cases hpb : env.parse_body with
    | error e0 =>
      have hr : update_pool env fluff = (Except.error e0, []) := by
        simp [update_pool, hup, hpb]
      refine ⟨?_, ?_, ?_, ?_⟩
      · intro hok
        rw [hr] at hok
        simp at hok
      · intro w e hw _
        simp at hw
      · intro w b e hw _ _
        simp at hw
      · intro w b t e hw _ _ _
        simp at hw
    | ok wrapper =>
      cases hhex : env.from_hex wrapper.tx_hex with
      | error e1 =>
        have hr : update_pool env fluff =
            (Except.error (ApiError.RequestErr
              ("Unable to decode transaction hex " ++ e1)), []) := by
          simp [update_pool, hup, hpb, hhex]
        refine ⟨?_, ?_, ?_, ?_⟩
        · intro hok
          rw [hr] at hok
          simp at hok
        · intro w e hw he
          rw [hr]
          exact ⟨rfl, fun u h => by simp at h⟩
        · intro w b e hw hb _
          injection hw with h
          subst h
          rw [hhex] at hb
          simp at hb
        · intro w b t e hw hb _ _
          injection hw with h
          subst h
          rw [hhex] at hb
          simp at hb
      | ok tx_bin =>
        cases hdes : env.deserialize tx_bin 1 with
        | error e2 =>
          have hr : update_pool env fluff =
              (Except.error (ApiError.RequestErr
                ("Unable to deserialize transaction from binary " ++ e2)), []) := by
            simp [update_pool, hup, hpb, hhex, hdes]
          refine ⟨?_, ?_, ?_, ?_⟩
          · intro hok
            rw [hr] at hok
            simp at hok
          · intro w e hw he
            injection hw with h
            subst h
            rw [hhex] at he
            simp at he
          · intro w b e hw hb hd
            rw [hr]
            exact ⟨rfl, fun u h => by simp at h⟩
          · intro w b t e hw hb hd hc
            injection hw with h
            subst h
            rw [hhex] at hb
            injection hb with h2
            subst h2
            rw [hdes] at hd
            simp at hd
        | ok tx =>
          cases hch : env.chain_head with
          | error e3 =>
            have hr : update_pool env fluff =
                (Except.error (ApiError.InternalErr
                  ("Failed to get chain head, " ++ e3)), []) := by
              simp [update_pool, hup, hpb, hhex, hdes, hch]
            refine ⟨?_, ?_, ?_, ?_⟩
            · intro hok
              rw [hr] at hok
              simp at hok
            · intro w e hw he
              injection hw with h
              subst h
              rw [hhex] at he
              simp at he
            · intro w b e hw hb hd
              injection hw with h
              subst h
              rw [hhex] at hb
              injection hb with h2
              subst h2
              rw [hdes] at hd
              simp at hd
            · intro w b t e hw hb hd hc
              rw [hr]
              exact ⟨rfl, fun u h => by simp at h⟩
          | ok header =>
            cases hadd : env.add_to_pool TxSource.PushApi tx (!fluff) header with
            | error e4 =>
              have hr : update_pool env fluff =
                  (Except.error (ApiError.InternalErr
                    ("Failed to update pool, " ++ e4)),
                   [{ source := TxSource.PushApi, tx := tx, stem := !fluff,
                      header := header }]) := by
                simp [update_pool, hup, hpb, hhex, hdes, hch, hadd]
              refine ⟨?_, ?_, ?_, ?_⟩
              · intro hok
                rw [hr] at hok
                simp at hok
              · intro w e hw he
                injection hw with h
                subst h
                rw [hhex] at he
                simp at he
              · intro w b e hw hb hd
                injection hw with h
                subst h
                rw [hhex] at hb
                injection hb with h2
                subst h2
                rw [hdes] at hd
                simp at hd
              · intro w b t e hw hb hd hc
                injection hw with h
                subst h
                rw [hhex] at hb
                injection hb with h2
                subst h2
                rw [hdes] at hd
                injection hd with h3
                subst h3
                simp at hc
            | ok u0 =>
              have hr : update_pool env fluff =
                  (Except.ok (),
                   [{ source := TxSource.PushApi, tx := tx, stem := !fluff,
                      header := header }]) := by
                simp [update_pool, hup, hpb, hhex, hdes, hch, hadd]
              refine ⟨?_, ?_, ?_, ?_⟩
              · intro _
                exact ⟨wrapper, tx_bin, tx, header, rfl, hhex, hdes, rfl, by rw [hr]⟩
              · intro w e hw he
                injection hw with h
                subst h
                rw [hhex] at he
                simp at he
              · intro w b e hw hb hd
                injection hw with h
                subst h
                rw [hhex] at hb
                injection hb with h2
                subst h2
                rw [hdes] at hd
                simp at hd
              · intro w b t e hw hb hd hc
                injection hw with h
                subst h
                rw [hhex] at hb
                injection hb with h2
                subst h2
                rw [hdes] at hd
                injection hd with h3
                subst h3
                simp at hc

/-- C9 witness: the concrete environment decodes "0a" to bytes `[10]`,
deserializes transaction 7 at protocol version 1, and `update_pool`
records exactly one `add_to_pool` call with source `PushApi`, stem
`!fluff` and the chain head. -/
theorem claim_C9_witness :
    ∃ wrapper tx_bin tx header,
      exApiEnv.parse_body = Except.ok wrapper ∧
      exApiEnv.from_hex wrapper.tx_hex = Except.ok tx_bin ∧
      exApiEnv.deserialize tx_bin 1 = Except.ok tx ∧
      exApiEnv.chain_head = Except.ok header ∧
      (update_pool exApiEnv true).2 =
        [{ source := TxSource.PushApi, tx := tx, stem := !true,
           header := header }] :=
  (claim_C9 exApiEnv true).1 rfl

/-- C6 witness: a concrete syncing read leaves the tracker untouched and
a concrete non-syncing attachment chunk is recorded quietly. -/
theorem claim_C6_witness :
    readerTrackerUpdate true { entries := [] } 0 (Except.ok (Message.Other 0)) 5 =
      { entries := [] } ∧
    (readerTrackerUpdate false { entries := [] } 3
      (Except.ok (Message.Attachment 2 none)) 7).entries =
      [{ bytes := 7, quiet := true, time := 3 }] := by
  refine ⟨claim_C6.1 { entries := [] } 0 (Except.ok (Message.Other 0)) 5, ?_⟩
  have h := claim_C6.2.1 { entries := [] } 3 (Except.ok (Message.Attachment 2 none)) 7
  rw [h]
  rfl

/-- C7 witness: with no peers ever qualifying outside `AwaitingPeers`, the
loop sleeps at most `3 + 1` seconds. -/
theorem claim_C7_witness :
    waitForMinPeersSleeps (fun _ => false)
      (fun k => wpCount ((fun _ : Nat => ([] : List Peer)) k) 5)
      (waitSecs SyncStatus.HeaderSync) ≤ waitSecs SyncStatus.HeaderSync + 1 :=
  (claim_C7 (fun _ => []) 5 SyncStatus.HeaderSync).1
